import Mathlib

/-!
Shallow embedding of `proxygen/lib/http/session/HTTPSessionBase.cpp`:
the HTTP session base layer (ingress flow-control accounting,
byte-event-tracker ownership, controller lifecycle, parse-error
dispatch), together with theorems checking the specification claims
against it.

Conventions used throughout:

* The `uint32_t` counter `pendingReadSize_` is modelled as `Nat`; none of
  the verified properties concerns 32-bit wraparound, and the `CHECK_GE`
  guard in `notifyBodyProcessed` is exactly what keeps the subtraction
  non-wrapping, which is proved below against true integer arithmetic.
* Fatal events (a failed `CHECK`, dereferencing a null pointer) are
  modelled by `Option`: `none` means the operation dies without
  producing a state.
* Calls the session makes on its collaborators (transaction,
  controller, info callback) are recorded as explicit event traces or
  result flags, so that ordering and notification claims can be stated.
* Opaque collaborator objects (transactions, handlers, addresses,
  strategies, callbacks, stats observers) are represented by `Nat`
  identifiers; only their identity matters to the session code.
-/

namespace Proxygen

/-- Transport direction of the codec (`TransportDirection` in the source). -/
inductive TransportDirection where
  | upstream
  | downstream
  deriving DecidableEq

/-- Wire protocols a codec may implement (`CodecProtocol` in the source tree). -/
inductive CodecProtocol where
  | http_1_1
  | spdy_3
  | spdy_3_1
  | http_2
  deriving DecidableEq

/-- Modelled from the spec: `isHTTP2CodecProtocol` (declared in the codec
library, which is outside this repository snapshot) recognises exactly the
HTTP/2 protocol family. -/
def isHTTP2CodecProtocol : CodecProtocol → Bool
  | CodecProtocol.http_2 => true
  | _ => false

/-- Settings identifiers (`SettingsId`); only `ENABLE_EX_HEADERS` is used by
the code under verification. -/
inductive SettingsId where
  | ENABLE_EX_HEADERS
  | HEADER_TABLE_SIZE
  | ENABLE_PUSH
  deriving DecidableEq

/-- Modelled from the spec: an `HTTPSettings` object stores settings as
(identifier, value) pairs; `setSetting` overwrites an existing entry or
inserts a fresh one. -/
structure HTTPSettings where
  settings : List (SettingsId × Nat)
  deriving DecidableEq

/-- Overwrite-or-insert on the underlying settings list. -/
def updateSettingList : List (SettingsId × Nat) → SettingsId → Nat → List (SettingsId × Nat)
  | [], id, value => [(id, value)]
  | (i, w) :: rest, id, value =>
    if i = id then (id, value) :: rest else (i, w) :: updateSettingList rest id value

/-- Modelled from the spec: `HTTPSettings::setSetting`. -/
def HTTPSettings.setSetting (st : HTTPSettings) (id : SettingsId) (value : Nat) : HTTPSettings :=
  HTTPSettings.mk (updateSettingList st.settings id value)

/-- Modelled from the spec: `HTTPSettings::getSetting`, the read-back used to
observe what `setSetting` stored. -/
def HTTPSettings.getSetting (st : HTTPSettings) (id : SettingsId) : Option Nat :=
  (st.settings.find? (fun p => p.1 == id)).map (fun p => p.2)

/-- A parse error (`HTTPException`); only its normalized classification,
`getProxygenError()`, is consulted by the code under verification. -/
structure HTTPException where
  proxygenError : Nat
  deriving DecidableEq

/-- The session controller (`HTTPSessionController`), a borrowed policy
object: it supplies a header-indexing strategy and constructs parse-error
handlers from (transaction, error, local address). -/
structure Controller where
  getHeaderIndexingStrategy : Nat
  getParseErrorHandler : Nat → HTTPException → Nat → Option Nat

/-- Byte-event tracker (`ByteEventTracker`): pending acknowledgment
bookkeeping plus a callback and a stats observer. -/
structure ByteEventTracker where
  pendingByteEvents : List Nat
  callback : Option Nat
  ttlbaStats : Option Nat

/-- Modelled from the spec: `ByteEventTracker::absorb` merges all pending
state of the old tracker into the new one, losing nothing. -/
def ByteEventTracker.absorb (self old : ByteEventTracker) : ByteEventTracker :=
  { self with pendingByteEvents := self.pendingByteEvents ++ old.pendingByteEvents }

/-- The codec as the session sees it: protocol identity, transport
direction, optional egress settings, and the (HTTP/2-only)
header-indexing-strategy slot. -/
structure Codec where
  protocol : CodecProtocol
  transportDirection : TransportDirection
  egressSettings : Option HTTPSettings
  headerIndexingStrategy : Option Nat

/-- State of `HTTPSessionBase` relevant to the verified operations. The
`infoCallback` field records only whether an info callback is attached;
the notifications sent to it appear in event traces and result flags. -/
structure HTTPSessionBase where
  pendingReadSize : Nat
  readBufLimit : Nat
  infoCallback : Bool
  controller : Option Controller
  codec : Codec
  byteEventTracker : Option ByteEventTracker
  sessionStats : Option Nat
  localAddr : Nat
  prioritySample : Bool
  h2PrioritiesEnabled : Bool
  exHeadersEnabled : Bool

/-- `HTTPSessionBase::notifyBodyProcessed(bytes)`: the
`CHECK_GE(pendingReadSize_, bytes)` guard is fatal (modelled as `none`)
and fires before any mutation; otherwise the counter is decremented and
the resume signal
`oldSize > readBufLimit_ && pendingReadSize_ <= readBufLimit_`
is returned. -/
def HTTPSessionBase.notifyBodyProcessed (s : HTTPSessionBase) (bytes : Nat) :
    Option (HTTPSessionBase × Bool) :=
  if bytes ≤ s.pendingReadSize then
    let oldSize := s.pendingReadSize
    let s' : HTTPSessionBase := { s with pendingReadSize := s.pendingReadSize - bytes }
    some (s', decide (s.readBufLimit < oldSize ∧ s'.pendingReadSize ≤ s.readBufLimit))
  else
    none

/-- Effect on the session state of `txn->onIngressBody(chain, padding)`:
the transaction may synchronously call back into `notifyBodyProcessed`
any number of times while consuming the delivered bytes; `consumes`
lists the byte counts of those calls, in order. -/
def deliverToTransaction (s : HTTPSessionBase) : List Nat → Option HTTPSessionBase
  | [] => some s
  | bytes :: rest =>
    match s.notifyBodyProcessed bytes with
    | none => none
    | some (s', _) => deliverToTransaction s' rest

/-- `HTTPSessionBase::onBody(chain, length, padding, txn)`: record the old
size, add `length + padding` to the counter, deliver the bytes to the
transaction, then compute the pause signal and, when an info callback is
attached, fire the `onIngressLimitExceeded` notification. The result is
(new state, paused, notification fired). -/
def HTTPSessionBase.onBody (s : HTTPSessionBase) (length padding : Nat)
    (consumes : List Nat) : Option (HTTPSessionBase × Bool × Bool) :=
  let oldSize := s.pendingReadSize
  let s1 : HTTPSessionBase :=
    { s with pendingReadSize := s.pendingReadSize + (length + padding) }
  match deliverToTransaction s1 consumes with
  | none => none
  | some s2 =>
    if oldSize < s2.pendingReadSize then
      if s2.readBufLimit < s2.pendingReadSize ∧ oldSize ≤ s2.readBufLimit then
        some (s2, true, s2.infoCallback)
      else
        some (s2, false, false)
    else
      some (s2, false, false)

/-- One step of the ingress flow-control interface: an `onBody` delivery or
a `notifyBodyProcessed` consumption report. -/
inductive FlowOp where
  | body (length padding : Nat) (consumes : List Nat)
  | processed (bytes : Nat)

/-- Run a sequence of flow-control operations, dying (`none`) as soon as one
of them dies. -/
def runFlowOps (s : HTTPSessionBase) : List FlowOp → Option HTTPSessionBase
  | [] => some s
  | FlowOp.body length padding consumes :: rest =>
    match s.onBody length padding consumes with
    | none => none
    | some (s', _, _) => runFlowOps s' rest
  | FlowOp.processed bytes :: rest =>
    match s.notifyBodyProcessed bytes with
    | none => none
    | some (s', _) => runFlowOps s' rest

/-- Events of `runDestroyCallbacks`; `detachSession` records the value of
the session controller field at the moment of the call, witnessing that
the reference was still intact when the controller was detached. -/
inductive DestroyEvent where
  | onDestroy
  | detachSession (controllerAtCall : Option Controller)

/-- Recognise a `detachSession` event. -/
def DestroyEvent.isDetach : DestroyEvent → Bool
  | DestroyEvent.detachSession _ => true
  | _ => false

/-- `HTTPSessionBase::runDestroyCallbacks()`: notify the info callback of
destruction, then detach from the controller (which is called while the
session still holds the live reference) and only afterwards clear the
controller reference. -/
def HTTPSessionBase.runDestroyCallbacks (s : HTTPSessionBase) :
    List DestroyEvent × HTTPSessionBase :=
  let destroyEvents := if s.infoCallback then [DestroyEvent.onDestroy] else []
  match s.controller with
  | some _ =>
    (destroyEvents ++ [DestroyEvent.detachSession s.controller],
      { s with controller := none })
  | none => (destroyEvents, s)

/-- Events of `onCodecChanged`. -/
inductive CodecChangeEvent where
  | onSessionCodecChange
  | setHeaderIndexingStrategy (strategy : Nat)
  deriving DecidableEq

/-- `HTTPSessionBase::initCodecHeaderIndexingStrategy()`: when a controller
is attached and the codec speaks an HTTP/2-family protocol, fetch the
header-indexing strategy from the controller and install it on the codec;
otherwise do nothing. -/
def HTTPSessionBase.initCodecHeaderIndexingStrategy (s : HTTPSessionBase) :
    List CodecChangeEvent × HTTPSessionBase :=
  match s.controller with
  | some c =>
    if isHTTP2CodecProtocol s.codec.protocol then
      ([CodecChangeEvent.setHeaderIndexingStrategy c.getHeaderIndexingStrategy],
        { s with codec :=
          { s.codec with headerIndexingStrategy := some c.getHeaderIndexingStrategy } })
    else ([], s)
  | none => ([], s)

/-- `HTTPSessionBase::onCodecChanged()`: notify the controller of the codec
change (skipped when no controller is attached), then re-derive the
header-indexing strategy. -/
def HTTPSessionBase.onCodecChanged (s : HTTPSessionBase) :
    List CodecChangeEvent × HTTPSessionBase :=
  let notifyEvents :=
    match s.controller with
    | some _ => [CodecChangeEvent.onSessionCodecChange]
    | none => []
  let stepped := s.initCodecHeaderIndexingStrategy
  (notifyEvents ++ stepped.1, stepped.2)

/-- `HTTPSessionBase::setByteEventTracker(tracker, cb)`: when both the new
and the stored tracker exist, the new tracker absorbs the pending state of
the old one; the stored reference is then replaced, and when the new
tracker exists the callback is installed on it and the session stats
observer is forwarded to it. -/
def HTTPSessionBase.setByteEventTracker (s : HTTPSessionBase)
    (tracker : Option ByteEventTracker) (cb : Option Nat) : HTTPSessionBase :=
  let tracker :=
    match tracker, s.byteEventTracker with
    | some nt, some old => some (nt.absorb old)
    | nt, _ => nt
  let s1 : HTTPSessionBase := { s with byteEventTracker := tracker }
  match s1.byteEventTracker with
  | some cur =>
    { s1 with
        byteEventTracker := some { cur with callback := cb, ttlbaStats := s1.sessionStats } }
  | none => s1

/-- Calls `handleErrorDirectly` makes on its collaborators, in order. -/
inductive ErrorDispatchEvent where
  | sendAbort
  | setHandler (handler : Nat)
  | onIngressError (proxygenError : Nat)
  | onError (error : HTTPException)
  deriving DecidableEq

/-- `HTTPSessionBase::getParseErrorHandler(txn, error)`: for an upstream
codec, return no handler unconditionally; otherwise the controller pointer
is dereferenced without a null check (`none` models that null
dereference) and handler construction is delegated to the controller with
the transaction, the error and the session local address. The outer
`Option` is the fatal/defined distinction; the inner one is the returned
handler or its absence. -/
def HTTPSessionBase.getParseErrorHandler (s : HTTPSessionBase) (txn : Nat)
    (error : HTTPException) : Option (Option Nat) :=
  if s.codec.transportDirection = TransportDirection.upstream then
    some none
  else
    match s.controller with
    | some c => some (c.getParseErrorHandler txn error s.localAddr)
    | none => none

/-- `HTTPSessionBase::handleErrorDirectly(txn, error)`: consult
`getParseErrorHandler`; with no handler, abort the transaction and stop;
with a handler, attach it, notify the info callback (when attached) of an
ingress error with the normalized classification, then deliver the error
to the transaction. The result is the trace of collaborator calls. -/
def HTTPSessionBase.handleErrorDirectly (s : HTTPSessionBase) (txn : Nat)
    (error : HTTPException) : Option (List ErrorDispatchEvent) :=
  match s.getParseErrorHandler txn error with
  | none => none
  | some none => some [ErrorDispatchEvent.sendAbort]
  | some (some handler) =>
    some ([ErrorDispatchEvent.setHandler handler]
      ++ (if s.infoCallback then [ErrorDispatchEvent.onIngressError error.proxygenError]
          else [])
      ++ [ErrorDispatchEvent.onError error])

/-- `HTTPSessionBase::enableExHeadersSettings()`: when the codec exposes
egress settings, set `ENABLE_EX_HEADERS` to 1 and flip the
extended-headers flag; otherwise do nothing. -/
def HTTPSessionBase.enableExHeadersSettings (s : HTTPSessionBase) : HTTPSessionBase :=
  match s.codec.egressSettings with
  | some settings =>
    { s with
        codec :=
          { s.codec with
              egressSettings := some (settings.setSetting SettingsId.ENABLE_EX_HEADERS 1) },
        exHeadersEnabled := true }
  | none => s

/-- The pause/notify condition in the words of the claim about `onBody`:
the counter did not decrease below its incremented value during delivery
(`before + length + padding ≤ after`), together with the upward crossing
`before ≤ limit < after`. Stated for comparison with the condition the
code actually computes, namely `before < after`. -/
def specOnBodyPauseCondition (before limit length padding after : Nat) : Prop :=
  before + length + padding ≤ after ∧ before ≤ limit ∧ limit < after

/-- A default codec value used to build concrete test sessions. -/
def baseCodec : Codec :=
  { protocol := CodecProtocol.http_1_1
    transportDirection := TransportDirection.downstream
    egressSettings := none
    headerIndexingStrategy := none }

/-- A default session value used to build concrete test sessions. -/
def baseSession : HTTPSessionBase :=
  { pendingReadSize := 0
    readBufLimit := 65536
    infoCallback := false
    controller := none
    codec := baseCodec
    byteEventTracker := none
    sessionStats := none
    localAddr := 0
    prioritySample := false
    h2PrioritiesEnabled := true
    exHeadersEnabled := false }

/-- A session sitting at counter 150 with limit 100, as in the scenario of
the spec. -/
def scenarioSession : HTTPSessionBase :=
  { baseSession with pendingReadSize := 150, readBufLimit := 100, infoCallback := true }

/-- A fresh session with limit 100 and an info callback attached. -/
def limitSession : HTTPSessionBase :=
  { baseSession with readBufLimit := 100, infoCallback := true }

/-- The state `limitSession` reaches after a 150-byte `onBody` delivery the
transaction does not consume. -/
def onBodyAfter : HTTPSessionBase :=
  { limitSession with pendingReadSize := 150 }

/-- The flow-operation script of the scenario in the spec: deliver 150
unconsumed bytes, then report 60 bytes processed. -/
def flowScript : List FlowOp :=
  [FlowOp.body 150 0 [], FlowOp.processed 60]

/-- A session holding 5 pending bytes, used to exercise the fatal
over-consumption check. -/
def overdrawnSession : HTTPSessionBase :=
  { baseSession with pendingReadSize := 5 }

/-- A controller that does construct parse-error handlers. -/
def sampleController : Controller :=
  { getHeaderIndexingStrategy := 7
    getParseErrorHandler := fun txn error addr => some (txn + error.proxygenError + addr) }

/-- A controller whose handler construction always returns no handler. -/
def noHandlerController : Controller :=
  { getHeaderIndexingStrategy := 3
    getParseErrorHandler := fun _ _ _ => none }

/-- An upstream-direction session with a handler-supplying controller. -/
def upstreamControllerSession : HTTPSessionBase :=
  { baseSession with
      codec := { baseCodec with transportDirection := TransportDirection.upstream },
      controller := some sampleController }

/-- A downstream-direction session with a handler-supplying controller. -/
def downstreamControllerSession : HTTPSessionBase :=
  { baseSession with controller := some sampleController }

/-- A downstream-direction session whose controller never supplies a
handler. -/
def downstreamNoHandlerSession : HTTPSessionBase :=
  { baseSession with controller := some noHandlerController }

/-- A downstream-direction session with an info callback but no controller. -/
def infoOnlySession : HTTPSessionBase :=
  { baseSession with infoCallback := true }

/-- A session whose codec speaks HTTP/2 and whose controller is attached. -/
def h2Session : HTTPSessionBase :=
  { baseSession with
      controller := some sampleController,
      codec := { baseCodec with protocol := CodecProtocol.http_2 } }

/-- A tracker with pending acknowledgment state, about to be replaced. -/
def oldTracker : ByteEventTracker :=
  { pendingByteEvents := [11, 12], callback := some 1, ttlbaStats := none }

/-- The replacement tracker. -/
def newTracker : ByteEventTracker :=
  { pendingByteEvents := [21], callback := none, ttlbaStats := none }

/-- A session holding `oldTracker` and a stats observer. -/
def trackedSession : HTTPSessionBase :=
  { baseSession with byteEventTracker := some oldTracker, sessionStats := some 5 }

/-- An egress settings object with an unrelated pre-existing entry. -/
def egressSettingsObj : HTTPSettings :=
  { settings := [(SettingsId.HEADER_TABLE_SIZE, 4096)] }

/-- A session whose codec exposes egress settings. -/
def settingsSession : HTTPSessionBase :=
  { baseSession with codec := { baseCodec with egressSettings := some egressSettingsObj } }

/-! Helper lemmas shared by the claim theorems. -/

/-- Successful `notifyBodyProcessed`, unfolded. -/
theorem notifyBodyProcessed_of_le (s : HTTPSessionBase) (bytes : Nat)
    (h : bytes ≤ s.pendingReadSize) :
    s.notifyBodyProcessed bytes =
      some ({ s with pendingReadSize := s.pendingReadSize - bytes },
        decide (s.readBufLimit < s.pendingReadSize ∧
          s.pendingReadSize - bytes ≤ s.readBufLimit)) := by
  simp [HTTPSessionBase.notifyBodyProcessed, h]

/-- Fatal `notifyBodyProcessed`, unfolded. -/
theorem notifyBodyProcessed_of_lt (s : HTTPSessionBase) (bytes : Nat)
    (h : s.pendingReadSize < bytes) :
    s.notifyBodyProcessed bytes = none := by
  simp [HTTPSessionBase.notifyBodyProcessed, Nat.not_le.mpr h]

/-- Inversion for successful `notifyBodyProcessed`. -/
theorem notifyBodyProcessed_inv (s : HTTPSessionBase) (bytes : Nat)
    (s' : HTTPSessionBase) (resume : Bool)
    (h : s.notifyBodyProcessed bytes = some (s', resume)) :
    bytes ≤ s.pendingReadSize ∧
    s' = { s with pendingReadSize := s.pendingReadSize - bytes } ∧
    (resume = true ↔ (s.readBufLimit < s.pendingReadSize ∧
      s.pendingReadSize - bytes ≤ s.readBufLimit)) := by
  by_cases hb : bytes ≤ s.pendingReadSize
  · rw [notifyBodyProcessed_of_le s bytes hb] at h
    obtain ⟨h1, h2⟩ := Prod.mk.injEq .. ▸ Option.some.inj h
    refine ⟨hb, h1.symm, ?_⟩
    rw [← h2]
    exact decide_eq_true_iff
  · rw [notifyBodyProcessed_of_lt s bytes (Nat.lt_of_not_le hb)] at h
    cases h

/-- Delivery to the transaction only consumes: the limit and the
info-callback flag are untouched and the counter never grows. -/
theorem deliverToTransaction_preserves (consumes : List Nat) :
    ∀ (s s' : HTTPSessionBase), deliverToTransaction s consumes = some s' →
      s'.readBufLimit = s.readBufLimit ∧ s'.infoCallback = s.infoCallback ∧
      s'.pendingReadSize ≤ s.pendingReadSize := by
  induction consumes with
  | nil =>
    intro s s' h
    simp only [deliverToTransaction] at h
    obtain rfl := Option.some.inj h
    exact ⟨rfl, rfl, Nat.le_refl _⟩
  | cons b rest ih =>
    intro s s' h
    simp only [deliverToTransaction] at h
    cases hn : s.notifyBodyProcessed b with
    | none => rw [hn] at h; cases h
    | some p =>
      rw [hn] at h
      obtain ⟨s1, r⟩ := p
      obtain ⟨hb, hs1, -⟩ := notifyBodyProcessed_inv s b s1 r hn
      subst hs1
      obtain ⟨h1, h2, h3⟩ := ih _ _ h
      refine ⟨h1, h2, ?_⟩
      simp only at h3
      omega

/-- `find?` after `updateSettingList` retrieves the freshly stored value. -/
theorem find_updateSettingList (l : List (SettingsId × Nat)) (id : SettingsId) (v : Nat) :
    (updateSettingList l id v).find? (fun p => p.1 == id) = some (id, v) := by
  induction l with
  | nil => simp [updateSettingList]
  | cons hd tl ih =>
    obtain ⟨i, w⟩ := hd
    by_cases hi : i = id
    · subst hi
      simp [updateSettingList]
    · simp only [updateSettingList, if_neg hi, List.find?]
      have : ((i, w).1 == id) = false := by
        simp [hi]
      rw [this]
      exact ih

/-- Reading back the setting just stored by `setSetting`. -/
theorem getSetting_setSetting (st : HTTPSettings) (id : SettingsId) (v : Nat) :
    (st.setSetting id v).getSetting id = some v := by
  simp [HTTPSettings.getSetting, HTTPSettings.setSetting, find_updateSettingList]

/-- Claim C2: under the precondition `bytes ≤ pendingReadSize`,
`notifyBodyProcessed` decrements the counter by `bytes` and signals
resume exactly when the pre-decrement value was strictly above
`readBufLimit` and the post-decrement value is at or below it; in
particular a counter sitting exactly at the limit counts as not
exceeded, so no resume is signalled from there. -/
theorem notifyBodyProcessed_resume_signal (s : HTTPSessionBase) (bytes : Nat)
    (h : bytes ≤ s.pendingReadSize) :
    s.notifyBodyProcessed bytes =
      some ({ s with pendingReadSize := s.pendingReadSize - bytes },
        decide (s.readBufLimit < s.pendingReadSize ∧
          s.pendingReadSize - bytes ≤ s.readBufLimit))
    ∧ ((s.notifyBodyProcessed bytes).map (fun p => p.2) = some true ↔
        (s.readBufLimit < s.pendingReadSize ∧
          s.pendingReadSize - bytes ≤ s.readBufLimit))
    ∧ (s.pendingReadSize = s.readBufLimit →
        (s.notifyBodyProcessed bytes).map (fun p => p.2) = some false) := by
  rw [notifyBodyProcessed_of_le s bytes h]
  refine ⟨rfl, ?_, ?_⟩
  · simp
  · intro hatLimit
    simp [hatLimit]

/-- Claim C3: the flow-control counter never goes below zero: a
`notifyBodyProcessed` call with more bytes than pending dies on the
`CHECK` before producing any mutated state, every successful decrement
agrees with true integer subtraction and stays nonnegative, and every
successful run of a sequence of flow operations ends with a nonnegative
counter. -/
theorem pendingReadSize_never_negative :
    (∀ (s : HTTPSessionBase) (bytes : Nat), s.pendingReadSize < bytes →
      s.notifyBodyProcessed bytes = none)
    ∧ (∀ (s s' : HTTPSessionBase) (bytes : Nat) (resume : Bool),
        s.notifyBodyProcessed bytes = some (s', resume) →
        (s'.pendingReadSize : Int) = (s.pendingReadSize : Int) - (bytes : Int) ∧
        0 ≤ (s'.pendingReadSize : Int))
    ∧ (∀ (s s' : HTTPSessionBase) (ops : List FlowOp),
        runFlowOps s ops = some s' → 0 ≤ (s'.pendingReadSize : Int)) := by
  refine ⟨fun s bytes h => notifyBodyProcessed_of_lt s bytes h, ?_, ?_⟩
  · intro s s' bytes resume h
    obtain ⟨hb, hs, -⟩ := notifyBodyProcessed_inv s bytes s' resume h
    subst hs
    constructor
    · simp only
      omega
    · exact Int.natCast_nonneg _
  · intro s s' ops h
    exact Int.natCast_nonneg _

/-- Witness for claim C2, on the scenario of the spec: counter 150, limit
100, 60 bytes processed; the counter drops to 90 and resume is signalled. -/
theorem notifyBodyProcessed_resume_signal_witness :
    scenarioSession.notifyBodyProcessed 60 =
      some ({ scenarioSession with pendingReadSize := 90 }, true)
    ∧ ((scenarioSession.notifyBodyProcessed 60).map (fun p => p.2) = some true ↔
        (100 < 150 ∧ 90 ≤ 100))
    ∧ (150 = 100 →
        (scenarioSession.notifyBodyProcessed 60).map (fun p => p.2) = some false) :=
  notifyBodyProcessed_resume_signal scenarioSession 60 (by decide)

/-- Witness for claim C3: over-reporting 7 bytes against 5 pending dies on
the check, and the scenario run of the spec ends nonnegative. -/
theorem pendingReadSize_never_negative_witness :
    overdrawnSession.notifyBodyProcessed 7 = none
    ∧ 0 ≤ ((({ limitSession with pendingReadSize := 90 } : HTTPSessionBase)).pendingReadSize : Int) :=
  ⟨pendingReadSize_never_negative.1 overdrawnSession 7 (by decide),
    pendingReadSize_never_negative.2.2 limitSession
      { limitSession with pendingReadSize := 90 } flowScript rfl⟩

/-- Claim C1 (amended): `onBody` records the old counter, adds
`length + padding`, delivers to the transaction, and then pauses exactly
when the counter after delivery strictly exceeds its pre-call value and
the upward crossing `before ≤ readBufLimit < after` holds; the
`onIngressLimitExceeded` notification fires exactly when the call pauses
and an info callback is attached; and delivery can only consume, never
grow the counter past the increment. -/
theorem onBody_pause_signal (s : HTTPSessionBase) (length padding : Nat)
    (consumes : List Nat) (s' : HTTPSessionBase) (paused notified : Bool)
    (h : s.onBody length padding consumes = some (s', paused, notified)) :
    (paused = true ↔
      (s.pendingReadSize < s'.pendingReadSize ∧
        s.pendingReadSize ≤ s.readBufLimit ∧ s.readBufLimit < s'.pendingReadSize))
    ∧ (notified = true ↔ (paused = true ∧ s.infoCallback = true))
    ∧ s'.pendingReadSize ≤ s.pendingReadSize + (length + padding) := by
  simp only [HTTPSessionBase.onBody] at h
  split at h
  next hd => cases h
  next s2 hd =>
    obtain ⟨hlim, hicb, hle⟩ := deliverToTransaction_preserves consumes _ _ hd
    simp only at hlim hicb hle
    split at h
    next hc1 =>
      split at h
      next hc2 =>
        simp only [Option.some.injEq, Prod.mk.injEq] at h
        obtain ⟨rfl, rfl, rfl⟩ := h
        rw [hlim] at hc2
        refine ⟨⟨fun _ => ⟨hc1, hc2.2, hc2.1⟩, fun _ => rfl⟩, ?_, hle⟩
        rw [hicb]
        simp
      next hc2 =>
        simp only [Option.some.injEq, Prod.mk.injEq] at h
        obtain ⟨rfl, rfl, rfl⟩ := h
        rw [hlim] at hc2
        refine ⟨?_, by simp, hle⟩
        constructor
        · intro hx
          exact absurd hx (by simp)
        · rintro ⟨-, p2, p3⟩
          exact absurd ⟨p3, p2⟩ hc2
    next hc1 =>
      simp only [Option.some.injEq, Prod.mk.injEq] at h
      obtain ⟨rfl, rfl, rfl⟩ := h
      refine ⟨?_, by simp, hle⟩
      constructor
      · intro hx
        exact absurd hx (by simp)
      · rintro ⟨p1, -, -⟩
        exact absurd p1 hc1

/-- Witness for claim C1 (amended), on the scenario of the spec: counter 0,
limit 100, 150 bytes delivered and not consumed; the call pauses and the
notification fires. -/
theorem onBody_pause_signal_witness :
    (true = true ↔
      (limitSession.pendingReadSize < onBodyAfter.pendingReadSize ∧
        limitSession.pendingReadSize ≤ limitSession.readBufLimit ∧
        limitSession.readBufLimit < onBodyAfter.pendingReadSize))
    ∧ (true = true ↔ (true = true ∧ limitSession.infoCallback = true))
    ∧ onBodyAfter.pendingReadSize ≤ limitSession.pendingReadSize + (150 + 0) :=
  onBody_pause_signal limitSession 150 0 [] onBodyAfter true true rfl

/-- Counterexample to claim C1 as stated: counter 0, limit 100, `onBody`
delivers 150 bytes of which the transaction synchronously consumes 10.
The code pauses and fires the notification (the counter, 140, still
exceeds the old value 0 and crosses the limit), yet the counter did
decrease below its incremented value 150, so the condition the claim
states does not hold. -/
theorem onBody_pause_signal_counterexample :
    (limitSession.onBody 150 0 [10]).map
        (fun r => (r.1.pendingReadSize, r.2.1, r.2.2)) = some (140, true, true)
    ∧ ¬ specOnBodyPauseCondition 0 100 150 0 140 := by
  refine ⟨rfl, ?_⟩
  rintro ⟨hmono, -, -⟩
  omega

/-- Claim C4: for every transaction and error, an upstream-direction codec
yields no parse-error handler, unconditionally and whatever the
controller; only the downstream case delegates to the controller handler
construction, passing the transaction, the error and the session local
address. -/
theorem getParseErrorHandler_upstream_none (s : HTTPSessionBase) (txn : Nat)
    (error : HTTPException) :
    (s.codec.transportDirection = TransportDirection.upstream →
      s.getParseErrorHandler txn error = some none)
    ∧ (∀ c, s.codec.transportDirection = TransportDirection.downstream →
        s.controller = some c →
        s.getParseErrorHandler txn error =
          some (c.getParseErrorHandler txn error s.localAddr)) := by
  constructor
  · intro hdir
    simp [HTTPSessionBase.getParseErrorHandler, hdir]
  · intro c hdir hc
    simp [HTTPSessionBase.getParseErrorHandler, hdir, hc]

/-- Witness for claim C4: an upstream session with a handler-supplying
controller still yields no handler, while the downstream counterpart
delegates to that controller. -/
theorem getParseErrorHandler_upstream_none_witness :
    upstreamControllerSession.getParseErrorHandler 1 (HTTPException.mk 2) = some none
    ∧ downstreamControllerSession.getParseErrorHandler 1 (HTTPException.mk 2) =
        some (sampleController.getParseErrorHandler 1 (HTTPException.mk 2)
          downstreamControllerSession.localAddr) :=
  ⟨(getParseErrorHandler_upstream_none upstreamControllerSession 1
      (HTTPException.mk 2)).1 rfl,
    (getParseErrorHandler_upstream_none downstreamControllerSession 1
      (HTTPException.mk 2)).2 sampleController rfl rfl⟩

/-- Claim C5 (amended): with a downstream codec, `handleErrorDirectly`
aborts the transaction with no handler-set call and no other effect when
an attached controller constructs no handler; with no controller
attached, the downstream branch dereferences the null controller (the
fatal outcome, `none`) rather than degrading to a no-op. -/
theorem handleErrorDirectly_downstream_abort (s : HTTPSessionBase) (txn : Nat)
    (error : HTTPException)
    (hdir : s.codec.transportDirection = TransportDirection.downstream) :
    (∀ c, s.controller = some c →
      c.getParseErrorHandler txn error s.localAddr = none →
      s.handleErrorDirectly txn error = some [ErrorDispatchEvent.sendAbort])
    ∧ (s.controller = none → s.handleErrorDirectly txn error = none) := by
  constructor
  · intro c hc hnone
    simp [HTTPSessionBase.handleErrorDirectly, HTTPSessionBase.getParseErrorHandler,
      hdir, hc, hnone]
  · intro hc
    simp [HTTPSessionBase.handleErrorDirectly, HTTPSessionBase.getParseErrorHandler,
      hdir, hc]

/-- Witness for claim C5 (amended): a downstream session whose controller
returns no handler; the transaction is aborted, nothing else happens. -/
theorem handleErrorDirectly_downstream_abort_witness :
    downstreamNoHandlerSession.handleErrorDirectly 0 (HTTPException.mk 1) =
      some [ErrorDispatchEvent.sendAbort] :=
  (handleErrorDirectly_downstream_abort downstreamNoHandlerSession 0
      (HTTPException.mk 1) rfl).1 noHandlerController rfl rfl

/-- Counterexample to claim C5 as stated: a downstream codec with no
controller attached; a parse error routed through `handleErrorDirectly`
dereferences the null controller (the fatal outcome, `none`) instead of
aborting the transaction — the controller-dependent branch is not a
no-op here. -/
theorem handleErrorDirectly_null_controller_counterexample :
    baseSession.codec.transportDirection = TransportDirection.downstream
    ∧ baseSession.controller = none
    ∧ baseSession.handleErrorDirectly 3 (HTTPException.mk 7) = none
    ∧ baseSession.handleErrorDirectly 3 (HTTPException.mk 7) ≠
        some [ErrorDispatchEvent.sendAbort] := by
  refine ⟨rfl, rfl, rfl, ?_⟩
  intro hx
  cases hx

/-- Claim C6 (amended): for every call on which the codec direction is
upstream or a controller is attached, `handleErrorDirectly` completes,
and exactly one of two outcomes occurs: with no handler the trace is a
lone abort; with a handler the trace is handler attachment, then the
ingress-error notification carrying the normalized classification
(present exactly when an info callback is attached), then error
delivery — in that order. -/
theorem handleErrorDirectly_two_outcomes (s : HTTPSessionBase) (txn : Nat)
    (error : HTTPException)
    (h : s.codec.transportDirection = TransportDirection.upstream ∨
      s.controller.isSome = true) :
    (s.getParseErrorHandler txn error).isSome = true
    ∧ (s.handleErrorDirectly txn error).isSome = true
    ∧ (s.getParseErrorHandler txn error = some none →
        s.handleErrorDirectly txn error = some [ErrorDispatchEvent.sendAbort])
    ∧ (∀ handler, s.getParseErrorHandler txn error = some (some handler) →
        s.handleErrorDirectly txn error =
          some ([ErrorDispatchEvent.setHandler handler]
            ++ (if s.infoCallback then
                  [ErrorDispatchEvent.onIngressError error.proxygenError]
                else [])
            ++ [ErrorDispatchEvent.onError error])) := by
  have hg : (s.getParseErrorHandler txn error).isSome = true := by
    rcases h with hdir | hcon
    · simp [HTTPSessionBase.getParseErrorHandler, hdir]
    · obtain ⟨c, hc⟩ := Option.isSome_iff_exists.mp hcon
      cases hdir : s.codec.transportDirection <;>
        simp [HTTPSessionBase.getParseErrorHandler, hdir, hc]
  refine ⟨hg, ?_, ?_, ?_⟩
  · cases hge : s.getParseErrorHandler txn error with
    | none => rw [hge] at hg; cases hg
    | some o =>
      cases o <;> simp [HTTPSessionBase.handleErrorDirectly, hge]
  · intro hge
    simp [HTTPSessionBase.handleErrorDirectly, hge]
  · intro handler hge
    simp [HTTPSessionBase.handleErrorDirectly, hge]

/-- Witness for claim C6 (amended): an upstream session with a controller;
the only outcome is the abort of the transaction. -/
theorem handleErrorDirectly_two_outcomes_witness :
    upstreamControllerSession.handleErrorDirectly 5 (HTTPException.mk 6) =
      some [ErrorDispatchEvent.sendAbort] :=
  (handleErrorDirectly_two_outcomes upstreamControllerSession 5
      (HTTPException.mk 6) (Or.inl rfl)).2.2.1 rfl

/-- Counterexample to claim C6 as stated: on a downstream session with no
controller, `handleErrorDirectly` produces neither of the two claimed
outcomes — the call dies on the null controller dereference and no
abort, attachment, notification or delivery takes place. -/
theorem handleErrorDirectly_two_outcomes_counterexample :
    infoOnlySession.codec.transportDirection = TransportDirection.downstream
    ∧ infoOnlySession.controller = none
    ∧ infoOnlySession.handleErrorDirectly 4 (HTTPException.mk 9) = none :=
  ⟨rfl, rfl, rfl⟩

/-- Claim C7: `onCodecChanged` first notifies the attached controller of
the change (skipped when absent) and only afterwards re-derives the
header-indexing strategy; the controller strategy is installed on the
codec exactly when a controller is present and the codec speaks an
HTTP/2-family protocol, and in every other case the session (hence the
codec strategy) is left untouched, with no error. -/
theorem onCodecChanged_notify_then_strategy (s : HTTPSessionBase) :
    ((s.onCodecChanged).1 =
      (if s.controller.isSome then [CodecChangeEvent.onSessionCodecChange] else [])
        ++ (s.initCodecHeaderIndexingStrategy).1)
    ∧ ((s.onCodecChanged).2 = (s.initCodecHeaderIndexingStrategy).2)
    ∧ (∀ c, s.controller = some c → isHTTP2CodecProtocol s.codec.protocol = true →
        (s.onCodecChanged).1 =
          [CodecChangeEvent.onSessionCodecChange,
            CodecChangeEvent.setHeaderIndexingStrategy c.getHeaderIndexingStrategy]
        ∧ (s.onCodecChanged).2.codec.headerIndexingStrategy =
            some c.getHeaderIndexingStrategy)
    ∧ ((s.controller = none ∨ isHTTP2CodecProtocol s.codec.protocol = false) →
        (s.onCodecChanged).2 = s) := by
  cases hc : s.controller with
  | none =>
    refine ⟨?_, ?_, ?_, ?_⟩ <;>
      simp [HTTPSessionBase.onCodecChanged, HTTPSessionBase.initCodecHeaderIndexingStrategy, hc]
  | some c =>
    cases hp : isHTTP2CodecProtocol s.codec.protocol with
    | false =>
      refine ⟨?_, ?_, ?_, ?_⟩ <;>
        simp [HTTPSessionBase.onCodecChanged,
          HTTPSessionBase.initCodecHeaderIndexingStrategy, hc, hp]
    | true =>
      refine ⟨?_, ?_, ?_, ?_⟩ <;>
        simp [HTTPSessionBase.onCodecChanged,
          HTTPSessionBase.initCodecHeaderIndexingStrategy, hc, hp]

/-- Witness for claim C7: an HTTP/2 session with a controller; the notify
event precedes the strategy installation and the strategy lands on the
codec. -/
theorem onCodecChanged_notify_then_strategy_witness :
    (h2Session.onCodecChanged).1 =
      [CodecChangeEvent.onSessionCodecChange,
        CodecChangeEvent.setHeaderIndexingStrategy
          sampleController.getHeaderIndexingStrategy]
    ∧ (h2Session.onCodecChanged).2.codec.headerIndexingStrategy =
        some sampleController.getHeaderIndexingStrategy :=
  (onCodecChanged_notify_then_strategy h2Session).2.2.1 sampleController rfl rfl

/-- Claim C8: the teardown sequence of `runDestroyCallbacks`: the
destruction notice to the info callback (when attached) precedes the
controller detach (when attached); the detach call is recorded with the
still-live controller reference, which is only cleared afterwards, so
the controller reference is null after teardown; detach runs at most
once and a repeated teardown performs no further detach; absent
observers mean the corresponding step is skipped. -/
theorem runDestroyCallbacks_teardown (s : HTTPSessionBase) :
    ((s.runDestroyCallbacks).1 =
      (if s.infoCallback then [DestroyEvent.onDestroy] else [])
        ++ (if s.controller.isSome then [DestroyEvent.detachSession s.controller] else []))
    ∧ (s.runDestroyCallbacks).2.controller = none
    ∧ ((s.runDestroyCallbacks).1.countP DestroyEvent.isDetach ≤ 1)
    ∧ (((s.runDestroyCallbacks).2.runDestroyCallbacks).1.countP DestroyEvent.isDetach = 0) := by
  cases hc : s.controller <;> cases hicb : s.infoCallback <;>
    simp [HTTPSessionBase.runDestroyCallbacks, hc, hicb, DestroyEvent.isDetach,
      List.countP_cons, List.countP_nil]

/-- Claim C9: `setByteEventTracker` merges the pending state of the stored
tracker into the new one when both exist — every pending entry of the
old tracker survives on the new one — then stores the new tracker
(possibly null), and when the new tracker exists installs the supplied
callback on it and forwards the session stats observer. -/
theorem setByteEventTracker_absorbs (s : HTTPSessionBase) (cb : Option Nat) :
    (∀ nt old, s.byteEventTracker = some old →
      (s.setByteEventTracker (some nt) cb).byteEventTracker =
        some (ByteEventTracker.mk (nt.pendingByteEvents ++ old.pendingByteEvents)
          cb s.sessionStats))
    ∧ (s.byteEventTracker = none → ∀ nt,
        (s.setByteEventTracker (some nt) cb).byteEventTracker =
          some (ByteEventTracker.mk nt.pendingByteEvents cb s.sessionStats))
    ∧ ((s.setByteEventTracker none cb).byteEventTracker = none)
    ∧ (∀ nt old x t, s.byteEventTracker = some old → x ∈ old.pendingByteEvents →
        (s.setByteEventTracker (some nt) cb).byteEventTracker = some t →
        x ∈ t.pendingByteEvents) := by
  refine ⟨?_, ?_, ?_, ?_⟩
  · intro nt old hold
    simp [HTTPSessionBase.setByteEventTracker, ByteEventTracker.absorb, hold]
  · intro hnone nt
    simp [HTTPSessionBase.setByteEventTracker, hnone]
  · cases hold : s.byteEventTracker <;>
      simp [HTTPSessionBase.setByteEventTracker, hold]
  · intro nt old x t hold hx ht
    simp [HTTPSessionBase.setByteEventTracker, ByteEventTracker.absorb, hold] at ht
    rw [← ht]
    simp [hx]

/-- Witness for claim C9: replacing `oldTracker` by `newTracker` keeps the
pending entries 11 and 12, installs callback 9 and forwards the stats
observer 5. -/
theorem setByteEventTracker_absorbs_witness :
    (trackedSession.setByteEventTracker (some newTracker) (some 9)).byteEventTracker =
      some (ByteEventTracker.mk ([21] ++ [11, 12]) (some 9) (some 5)) :=
  (setByteEventTracker_absorbs trackedSession (some 9)).1 newTracker oldTracker rfl

/-- Claim C10: `enableExHeadersSettings` sets `ENABLE_EX_HEADERS` to 1 on
the egress settings and flips the extended-headers flag exactly when the
codec exposes an egress settings object; with none, the call leaves the
session completely untouched. -/
theorem enableExHeadersSettings_guarded (s : HTTPSessionBase) :
    (∀ st, s.codec.egressSettings = some st →
      (s.enableExHeadersSettings).codec.egressSettings =
        some (st.setSetting SettingsId.ENABLE_EX_HEADERS 1)
      ∧ ((st.setSetting SettingsId.ENABLE_EX_HEADERS 1).getSetting
          SettingsId.ENABLE_EX_HEADERS = some 1)
      ∧ (s.enableExHeadersSettings).exHeadersEnabled = true)
    ∧ (s.codec.egressSettings = none → s.enableExHeadersSettings = s) := by
  constructor
  · intro st hst
    refine ⟨?_, getSetting_setSetting st SettingsId.ENABLE_EX_HEADERS 1, ?_⟩ <;>
      simp [HTTPSessionBase.enableExHeadersSettings, hst]
  · intro hnone
    simp [HTTPSessionBase.enableExHeadersSettings, hnone]

/-- Witness for claim C10: a session with egress settings gains the
`ENABLE_EX_HEADERS = 1` entry and the flag flips. -/
theorem enableExHeadersSettings_guarded_witness :
    (settingsSession.enableExHeadersSettings).codec.egressSettings =
      some (egressSettingsObj.setSetting SettingsId.ENABLE_EX_HEADERS 1)
    ∧ ((egressSettingsObj.setSetting SettingsId.ENABLE_EX_HEADERS 1).getSetting
        SettingsId.ENABLE_EX_HEADERS = some 1)
    ∧ (settingsSession.enableExHeadersSettings).exHeadersEnabled = true :=
  (enableExHeadersSettings_guarded settingsSession).1 egressSettingsObj rfl

end Proxygen
